import Mathlib

/-!
Shallow embedding of the NAT traversal pinger (`nat/traversal/pinger.go`).
Time is modelled in integer milliseconds.  Channel sends on the
`pingCancelled` channel are counted.  Each socket read attempt is an input
event that either fails after `d` ms (the code then logs, sleeps one ping
interval and retries) or delivers a datagram of `bytes` bytes after `d` ms.
-/

namespace Traversal

/-- Constant `pingInterval` (ms) from pinger.go. -/
def pingInterval : Nat := 200

/-- Constant `pingTimeout` (ms) from pinger.go. -/
def pingTimeout : Nat := 10000

/-- One clamp step of the sender loop `ping`: if the counter exceeds 4 it
is set to 128 before being written to the socket with `SetTTL`. -/
def pingTTL (n : Nat) : Nat := if 4 < n then 128 else n

/-- Timed trace of the sender loop `ping`: each iteration waits
`pingInterval` ms, clamps the counter, sets the clamped TTL on the socket,
increments the counter and writes the marker datagram.  `fuel` bounds the
number of ticks before the cancellation signal stops the loop; entries are
`(time in ms since the sender started, ttl value set)`. -/
def pingTrace : Nat → Nat → Nat → List (Nat × Nat)
  | 0, _, _ => []
  | fuel + 1, t, n =>
      (t + pingInterval, pingTTL n) :: pingTrace fuel (t + pingInterval) (pingTTL n + 1)

/-- The sender `ping`, whose counter `n` starts at 1. -/
def ping (fuel : Nat) : List (Nat × Nat) := pingTrace fuel 0 1

/-- Counter value held by the sender before tick `k`, starting from `n`. -/
def counterFrom (n : Nat) : Nat → Nat
  | 0 => n
  | k + 1 => pingTTL (counterFrom n k) + 1

theorem counterFrom_shift (n k : Nat) :
    counterFrom (pingTTL n + 1) k = counterFrom n (k + 1) := by
  induction k with
  | zero => rfl
  | succ k ih => simp [counterFrom, ih]

theorem counterFrom_one (k : Nat) : counterFrom 1 k = if k ≤ 4 then k + 1 else 129 := by
  induction k with
  | zero => rfl
  | succ k ih =>
      simp only [counterFrom, ih, pingTTL]
      split_ifs <;> omega

theorem pingTrace_length (fuel t n : Nat) : (pingTrace fuel t n).length = fuel := by
  induction fuel generalizing t n with
  | zero => rfl
  | succ fuel ih => simp [pingTrace, ih]

theorem pingTrace_get (fuel k t n : Nat) (hk : k < (pingTrace fuel t n).length) :
    (pingTrace fuel t n).get ⟨k, hk⟩ =
      (t + pingInterval * (k + 1), pingTTL (counterFrom n k)) := by
  induction fuel generalizing k t n with
  | zero => simp [pingTrace] at hk
  | succ fuel ih =>
      cases k with
      | zero => simp [pingTrace, counterFrom]
      | succ k =>
          have hk' : k < (pingTrace fuel (t + pingInterval) (pingTTL n + 1)).length := by
            rw [pingTrace_length]
            rw [pingTrace_length] at hk
            omega
          have hstep := ih k (t + pingInterval) (pingTTL n + 1) hk'
          simp only [pingTrace, List.get_cons_succ]
          rw [hstep, counterFrom_shift]
          simp only [Prod.mk.injEq]
          refine ⟨by ring, by simp⟩

/-- Closed form for the TTL value the sender sets on tick `k`. -/
theorem ping_get (fuel k : Nat) (hk : k < (ping fuel).length) :
    (ping fuel).get ⟨k, hk⟩ = (pingInterval * (k + 1), if k < 4 then k + 1 else 128) := by
  have h := pingTrace_get fuel k 0 1 hk
  rw [show (ping fuel).get ⟨k, hk⟩ = (pingTrace fuel 0 1).get ⟨k, hk⟩ from rfl, h,
    counterFrom_one, Nat.zero_add]
  simp only [Prod.mk.injEq, pingTTL]
  refine ⟨trivial, ?_⟩
  split_ifs <;> omega

/-- Claim C1: for every punch attempt the TTL values set on the socket by
the sender are exactly `1, 2, 3, 4, 128, 128, …`, one value per 200 ms
tick; the sequence is monotonically non-decreasing and never exceeds 128. -/
theorem ttl_sequence (fuel k : Nat) (hk : k < (ping fuel).length) :
    (ping fuel).get ⟨k, hk⟩ = (pingInterval * (k + 1), if k < 4 then k + 1 else 128) ∧
    ((ping fuel).get ⟨k, hk⟩).2 ≤ 128 ∧
    (∀ j (hj : j < (ping fuel).length), j ≤ k →
      ((ping fuel).get ⟨j, hj⟩).2 ≤ ((ping fuel).get ⟨k, hk⟩).2) := by
  refine ⟨ping_get fuel k hk, ?_, ?_⟩
  · rw [ping_get fuel k hk]
    simp only
    split_ifs <;> omega
  · intro j hj hjk
    rw [ping_get fuel k hk, ping_get fuel j hj]
    simp only
    split_ifs <;> omega

/-- Witness for `ttl_sequence` at tick 5 of a 6-tick run. -/
theorem ttl_sequence_witness :
    ((ping 6).get ⟨5, by decide⟩).2 ≤ 128 ∧
    ((ping 6).get ⟨2, by decide⟩).2 ≤ ((ping 6).get ⟨5, by decide⟩).2 :=
  ⟨(ttl_sequence 6 5 (by decide)).2.1,
   (ttl_sequence 6 5 (by decide)).2.2 2 (by decide) (by decide)⟩

/-- One socket read attempt as seen by `pingReceiver`: either the read
fails after `d` ms (the code logs, sleeps one ping interval and retries),
or a datagram of `bytes` bytes is read after `d` ms. -/
inductive ReadEvent
  | err (d : Nat)
  | recv (d : Nat) (bytes : Nat)
  deriving DecidableEq

/-- Whether a read attempt failed. -/
def ReadEvent.isErr : ReadEvent → Bool
  | .err _ => true
  | .recv _ _ => false

/-- Outcome of a `pingReceiver` run: the timeout error, a nil return
(success), or still blocked in a read when the supplied events run out. -/
inductive RecvOutcome
  | timedOut
  | success
  | blocked
  deriving DecidableEq

/-- Result of a `pingReceiver` run: the outcome, the number of sends on
the `pingCancelled` channel, and the time (ms after entry) of the return. -/
structure RecvResult where
  outcome : RecvOutcome
  cancels : Nat
  elapsed : Nat
  deriving DecidableEq

/-- Loop of `pingReceiver` over its list of read events, carrying the elapsed time
`t`.  The `timeout` channel, armed at entry to fire `pingTimeout` ms later,
is polled in a non-blocking select at the top of each iteration; once it
has fired the code sends one cancellation and returns the timeout error.
A failed read costs its own duration plus one `pingInterval` sleep.  A
read that returns a datagram of any size waits `2 * pingInterval` more,
sends one cancellation and returns nil. -/
def pingReceiverAux : List ReadEvent → Nat → RecvResult
  | [], t =>
      if pingTimeout ≤ t then ⟨.timedOut, 1, t⟩ else ⟨.blocked, 0, t⟩
  | ReadEvent.err d :: rest, t =>
      if pingTimeout ≤ t then ⟨.timedOut, 1, t⟩
      else pingReceiverAux rest (t + d + pingInterval)
  | ReadEvent.recv d _ :: _, t =>
      if pingTimeout ≤ t then ⟨.timedOut, 1, t⟩
      else ⟨.success, 1, t + d + 2 * pingInterval⟩

/-- Entry of `pingReceiver`: the read loop starts with zero elapsed time. -/
def pingReceiver (evs : List ReadEvent) : RecvResult := pingReceiverAux evs 0

/-- Accumulated cost of a run of failed reads: each failed read of
duration `d` is followed by a `pingInterval` retry sleep. -/
def errCost : List ReadEvent → Nat
  | [] => 0
  | ReadEvent.err d :: rest => d + pingInterval + errCost rest
  | ReadEvent.recv _ _ :: rest => errCost rest

/-- Completion time of the first read that returns a datagram, if any. -/
def firstDatagramTime : List ReadEvent → Nat → Option Nat
  | [], _ => none
  | ReadEvent.err d :: rest, t => firstDatagramTime rest (t + d + pingInterval)
  | ReadEvent.recv d _ :: _, t => some (t + d)

theorem pingReceiverAux_fired (evs : List ReadEvent) (t : Nat) (h : pingTimeout ≤ t) :
    pingReceiverAux evs t = ⟨RecvOutcome.timedOut, 1, t⟩ := by
  cases evs with
  | nil => simp [pingReceiverAux, h]
  | cons e rest => cases e <;> simp [pingReceiverAux, h]

theorem pingReceiverAux_timeout (pre rest : List ReadEvent) (t : Nat)
    (h1 : pre.all ReadEvent.isErr = true) (h2 : pingTimeout ≤ t + errCost pre) :
    (pingReceiverAux (pre ++ rest) t).outcome = RecvOutcome.timedOut ∧
    (pingReceiverAux (pre ++ rest) t).cancels = 1 := by
  induction pre generalizing t with
  | nil =>
      simp only [errCost, Nat.add_zero] at h2
      rw [List.nil_append, pingReceiverAux_fired rest t h2]
      exact ⟨rfl, rfl⟩
  | cons e pre ih =>
      cases e with
      | err d =>
          by_cases ht : pingTimeout ≤ t
          · rw [List.cons_append, pingReceiverAux_fired _ t ht]
            exact ⟨rfl, rfl⟩
          · rw [List.cons_append]
            simp only [pingReceiverAux, if_neg ht]
            refine ih (t + d + pingInterval) ?_ ?_
            · simp only [List.all_cons, Bool.and_eq_true] at h1
              exact h1.2
            · simp only [errCost] at h2
              omega
      | recv d b => simp [List.all_cons, ReadEvent.isErr] at h1

theorem pingReceiverAux_success (pre rest : List ReadEvent) (t d n : Nat)
    (h1 : pre.all ReadEvent.isErr = true) (h2 : t + errCost pre < pingTimeout) :
    pingReceiverAux (pre ++ ReadEvent.recv d n :: rest) t =
      ⟨RecvOutcome.success, 1, t + errCost pre + d + 2 * pingInterval⟩ := by
  induction pre generalizing t with
  | nil =>
      have ht : ¬ pingTimeout ≤ t := by simp only [errCost] at h2; omega
      simp [pingReceiverAux, ht, errCost]
  | cons e pre ih =>
      cases e with
      | err dd =>
          have ht : ¬ pingTimeout ≤ t := by simp only [errCost] at h2; omega
          rw [List.cons_append]
          simp only [pingReceiverAux, if_neg ht]
          rw [ih (t + dd + pingInterval)
            (by simp only [List.all_cons, Bool.and_eq_true] at h1; exact h1.2)
            (by simp only [errCost] at h2; omega)]
          simp only [RecvResult.mk.injEq, errCost]
          exact ⟨trivial, trivial, by omega⟩
      | recv dd bb => simp [List.all_cons, ReadEvent.isErr] at h1

/-- Claim C2 (amended): if every read attempt in the race fails and the
accumulated retry time reaches the 10 000 ms deadline before any datagram
is read, the attempt resolves to the timeout error and exactly one
cancellation is sent to the sender.  (The deadline is only polled at the
top of each read iteration, so this — not merely the absence of a datagram
within 10 000 ms — is what forces the timeout path.) -/
theorem receiver_timeout_all_errors (pre rest : List ReadEvent)
    (h1 : pre.all ReadEvent.isErr = true) (h2 : pingTimeout ≤ errCost pre) :
    (pingReceiver (pre ++ rest)).outcome = RecvOutcome.timedOut ∧
    (pingReceiver (pre ++ rest)).cancels = 1 :=
  pingReceiverAux_timeout pre rest 0 h1 (by omega)

/-- Witness for `receiver_timeout_all_errors`: one failed read of 9 800 ms
plus its 200 ms retry sleep reaches the deadline. -/
theorem receiver_timeout_all_errors_witness :
    (pingReceiver ([ReadEvent.err 9800] ++ [])).outcome = RecvOutcome.timedOut ∧
    (pingReceiver ([ReadEvent.err 9800] ++ [])).cancels = 1 :=
  receiver_timeout_all_errors [ReadEvent.err 9800] [] (by decide) (by decide)

/-- Counterexample to claim C2 as stated: a read that starts before the
deadline and completes with a datagram only after it (at 10 400 ms, so no
datagram arrived within 10 000 ms of entry) still resolves to success,
because the fired timeout channel is never polled again. -/
theorem receiver_timeout_cx :
    ¬ (∀ evs : List ReadEvent,
        (∀ t0, firstDatagramTime evs 0 = some t0 → pingTimeout < t0) →
        (pingReceiver evs).outcome = RecvOutcome.timedOut ∧
        (pingReceiver evs).cancels = 1) := by
  intro h
  have hx := h [ReadEvent.err 9700, ReadEvent.recv 500 1]
    (by
      intro t0 ht0
      simp only [firstDatagramTime, pingInterval] at ht0
      simp only [Option.some.injEq] at ht0
      rw [pingTimeout]
      omega)
  exact absurd hx.1 (by decide)

/-- Claim C5: on the first received datagram the receiver waits an
additional `2 * pingInterval` = 400 ms, sends exactly one cancellation to
the sender, and returns success; events after the first receipt are
irrelevant (only the first receipt triggers the success path). -/
theorem receiver_first_datagram (pre rest : List ReadEvent) (d n : Nat)
    (h1 : pre.all ReadEvent.isErr = true) (h2 : errCost pre < pingTimeout) :
    pingReceiver (pre ++ ReadEvent.recv d n :: rest) =
      ⟨RecvOutcome.success, 1, errCost pre + d + 2 * pingInterval⟩ := by
  have h := pingReceiverAux_success pre rest 0 d n h1 (by omega)
  simpa [pingReceiver] using h

/-- Witness for `receiver_first_datagram`: datagram read at 600 ms, return
at 1 000 ms with one cancellation; the trailing datagram is ignored. -/
theorem receiver_first_datagram_witness :
    pingReceiver ([] ++ ReadEvent.recv 600 5 :: [ReadEvent.recv 1 1]) =
      ⟨RecvOutcome.success, 1, errCost [] + 600 + 2 * pingInterval⟩ :=
  receiver_first_datagram [] [ReadEvent.recv 1 1] 600 5 (by decide) (by decide)

/-- Claim C10: a successful read of a zero-length datagram (0 bytes, no
error) still takes the success path: one cancellation and a nil return. -/
theorem receiver_zero_length_datagram (d : Nat) (rest : List ReadEvent) :
    (pingReceiver (ReadEvent.recv d 0 :: rest)).outcome = RecvOutcome.success ∧
    (pingReceiver (ReadEvent.recv d 0 :: rest)).cancels = 1 := by
  have ht : ¬ pingTimeout ≤ 0 := by decide
  simp [pingReceiver, pingReceiverAux, ht]

/-- Result of `ConfigParser.Parse` on a request's raw config: the Go
function returns the values together with the error, so even on a failed
parse the (possibly zero) `ip`, `port` and `serviceType` are available to
the caller. -/
structure ParseOutput where
  ip : String
  port : Nat
  serviceType : String
  errored : Bool
  deriving DecidableEq

/-- Environment of one provider-side Punch Request as `Start` sees it:
the parse result of its config, availability of the NATProxy for the
parsed service type, whether resolve+dial succeed, and the read events
the punch socket will deliver. -/
structure RequestEnv where
  parsed : ParseOutput
  proxyAvailable : Bool
  dialOk : Bool
  reads : List ReadEvent
  deriving DecidableEq

/-- A dialed UDP connection: local port and remote address. -/
structure Conn where
  localPort : Nat
  remoteIp : String
  remotePort : Nat
  deriving DecidableEq

/-- Model of `getConnection`: resolves the remote address and dials UDP with the
local address `{Port: pingerPort}`; `dialOk` abstracts resolve and dial
success.  The port pool (`portSupplier`) field of the Pinger is not
consulted. -/
def getConnection (ip : String) (port : Nat) (pingerPort : Nat) (dialOk : Bool) :
    Option Conn :=
  if dialOk then some ⟨pingerPort, ip, port⟩ else none

/-- Observable actions of the provider-side dispatch loop, each tagged
with the index of the Punch Request it belongs to. -/
inductive Action
  | parseFailLogged (i : Nat)
  | skipUnavailable (i : Nat)
  | skipZeroPort (i : Nat)
  | openSocket (i : Nat) (localPort : Nat) (remoteIp : String) (remotePort : Nat)
  | acquirePort (i : Nat)
  | handOff (i : Nat) (serviceType : String)
  | closeSocket (i : Nat)
  | resolve (i : Nat)
  deriving DecidableEq

/-- Request index an action belongs to. -/
def Action.idx : Action → Nat
  | .parseFailLogged i => i
  | .skipUnavailable i => i
  | .skipZeroPort i => i
  | .openSocket i _ _ _ => i
  | .acquirePort i => i
  | .handOff i _ => i
  | .closeSocket i => i
  | .resolve i => i

/-- Whether an action opens the punch socket. -/
def Action.isOpen : Action → Bool
  | .openSocket _ _ _ _ => true
  | .parseFailLogged _ => false
  | .skipUnavailable _ => false
  | .skipZeroPort _ => false
  | .acquirePort _ => false
  | .handOff _ _ => false
  | .closeSocket _ => false
  | .resolve _ => false

/-- Whether an action calls the port supplier's `Acquire`. -/
def Action.isAcquire : Action → Bool
  | .acquirePort _ => true
  | .parseFailLogged _ => false
  | .skipUnavailable _ => false
  | .skipZeroPort _ => false
  | .openSocket _ _ _ _ => false
  | .handOff _ _ => false
  | .closeSocket _ => false
  | .resolve _ => false

/-- Whether an action hands the socket to the NATProxy. -/
def Action.isHandOff : Action → Bool
  | .handOff _ _ => true
  | .parseFailLogged _ => false
  | .skipUnavailable _ => false
  | .skipZeroPort _ => false
  | .openSocket _ _ _ _ => false
  | .acquirePort _ => false
  | .closeSocket _ => false
  | .resolve _ => false

/-- Whether an action closes the punch socket. -/
def Action.isClose : Action → Bool
  | .closeSocket _ => true
  | .parseFailLogged _ => false
  | .skipUnavailable _ => false
  | .skipZeroPort _ => false
  | .openSocket _ _ _ _ => false
  | .acquirePort _ => false
  | .handOff _ _ => false
  | .resolve _ => false

/-- Body of one iteration of `Start`'s dispatch loop after the config has
been parsed: check proxy availability, skip a zero remote port, dial from
the caller-supplied `pingParams.Port`, run the sender concurrently and the
receive/timeout race inline, and on success dispatch the handoff.  A
receiver error (`timedOut`) just continues the loop: the socket is neither
closed nor handed off.  A receiver that never returns (`blocked`) stops
the loop; the second component tells whether the loop continues. -/
def processBody (i p : Nat) (env : RequestEnv) : List Action × Bool :=
  if env.proxyAvailable = false then ([Action.skipUnavailable i, Action.resolve i], true)
  else if env.parsed.port = 0 then ([Action.skipZeroPort i, Action.resolve i], true)
  else
    match getConnection env.parsed.ip env.parsed.port p env.dialOk with
    | none => ([Action.resolve i], true)
    | some c =>
        match (pingReceiver env.reads).outcome with
        | RecvOutcome.timedOut =>
            ([Action.openSocket i c.localPort c.remoteIp c.remotePort, Action.resolve i], true)
        | RecvOutcome.success =>
            ([Action.openSocket i c.localPort c.remoteIp c.remotePort,
              Action.handOff i env.parsed.serviceType, Action.resolve i], true)
        | RecvOutcome.blocked =>
            ([Action.openSocket i c.localPort c.remoteIp c.remotePort], false)

/-- One full iteration of `Start`'s dispatch loop for request `i` with
caller-supplied local port hint `p`: a parse error is only logged before
the body runs with whatever values the parse produced. -/
def processRequest (i p : Nat) (env : RequestEnv) : List Action × Bool :=
  ((if env.parsed.errored then [Action.parseFailLogged i] else []) ++ (processBody i p env).1,
   (processBody i p env).2)

/-- The dispatch loop of `Start` over the Punch Requests arriving on the
`pingTarget` channel, in order, numbering them from `i`.  Each request is
fully processed — the receive/timeout race runs inline — before the next
is dequeued. -/
def dispatchAux : Nat → List (Nat × RequestEnv) → List Action
  | _, [] => []
  | i, (p, env) :: rest =>
      if (processRequest i p env).2 then (processRequest i p env).1 ++ dispatchAux (i + 1) rest
      else (processRequest i p env).1

/-- The dispatch loop entered with the first request numbered 0. -/
def dispatch (reqs : List (Nat × RequestEnv)) : List Action := dispatchAux 0 reqs

/-- Modelled from the spec: the NAT Event Waiter contract is
`waitForEvent() → {Success, Failure}`; the traversal events source file
defining the event type is not part of the given tree. -/
inductive EventType
  | successType
  | failureType
  deriving DecidableEq

/-- A NAT event as returned by `WaitForEvent`. -/
structure Event where
  type : EventType
  deriving DecidableEq

/-- Model of `Start`: waits for the NAT event; if automatic port mapping succeeded
it returns at once and the dispatch loop is never entered, otherwise it
runs the dispatch loop over the incoming requests. -/
def start (ev : Event) (reqs : List (Nat × RequestEnv)) : List Action :=
  match ev.type with
  | EventType.successType => []
  | EventType.failureType => dispatch reqs

theorem processBody_idx (i p : Nat) (env : RequestEnv) :
    ∀ a ∈ (processBody i p env).1, a.idx = i := by
  intro a ha
  unfold processBody at ha
  cases hav : env.proxyAvailable
  · simp [hav] at ha
    rcases ha with rfl | rfl <;> rfl
  · by_cases hp : env.parsed.port = 0
    · simp [hav, hp] at ha
      rcases ha with rfl | rfl <;> rfl
    · cases hd : env.dialOk
      · simp [hav, hp, hd, getConnection] at ha
        subst ha
        rfl
      · cases ho : (pingReceiver env.reads).outcome
        · simp [hav, hp, hd, ho, getConnection] at ha
          rcases ha with rfl | rfl <;> rfl
        · simp [hav, hp, hd, ho, getConnection] at ha
          rcases ha with rfl | rfl | rfl <;> rfl
        · simp [hav, hp, hd, ho, getConnection] at ha
          subst ha
          rfl

theorem processBody_resolve (i p : Nat) (env : RequestEnv)
    (h : (processBody i p env).2 = true) :
    ∃ pre, (processBody i p env).1 = pre ++ [Action.resolve i] := by
  unfold processBody at h ⊢
  cases hav : env.proxyAvailable
  · exact ⟨[Action.skipUnavailable i], by simp [hav]⟩
  · by_cases hp : env.parsed.port = 0
    · exact ⟨[Action.skipZeroPort i], by simp [hav, hp]⟩
    · cases hd : env.dialOk
      · exact ⟨[], by simp [hav, hp, hd, getConnection]⟩
      · cases ho : (pingReceiver env.reads).outcome
        · exact ⟨[Action.openSocket i p env.parsed.ip env.parsed.port],
            by simp [hav, hp, hd, ho, getConnection]⟩
        · exact ⟨[Action.openSocket i p env.parsed.ip env.parsed.port,
            Action.handOff i env.parsed.serviceType],
            by simp [hav, hp, hd, ho, getConnection]⟩
        · rw [hav] at h
          simp [hp, hd, ho, getConnection] at h

theorem processRequest_idx (i p : Nat) (env : RequestEnv) :
    ∀ a ∈ (processRequest i p env).1, a.idx = i := by
  intro a ha
  unfold processRequest at ha
  rw [List.mem_append] at ha
  rcases ha with ha | ha
  · cases henv : env.parsed.errored <;> simp only [henv, if_true, if_false] at ha
    · simp at ha
    · simp only [List.mem_cons, List.not_mem_nil, or_false] at ha
      rcases ha with rfl
      rfl
  · exact processBody_idx i p env a ha

theorem processRequest_resolve (i p : Nat) (env : RequestEnv)
    (h : (processRequest i p env).2 = true) :
    ∃ pre, (processRequest i p env).1 = pre ++ [Action.resolve i] := by
  obtain ⟨pre, hpre⟩ := processBody_resolve i p env h
  refine ⟨(if env.parsed.errored then [Action.parseFailLogged i] else []) ++ pre, ?_⟩
  unfold processRequest
  rw [hpre, List.append_assoc]

theorem dispatchAux_serial (reqs : List (Nat × RequestEnv)) :
    ∀ (k b i : Nat) (a : Action), k ≤ i →
      (dispatchAux k reqs)[b]? = some a → i < a.idx →
      ∃ c, c < b ∧ (dispatchAux k reqs)[c]? = some (Action.resolve i) := by
  induction reqs with
  | nil =>
      intro k b i a _ hb _
      simp [dispatchAux] at hb
  | cons pe rest ih =>
      obtain ⟨p, env⟩ := pe
      intro k b i a hki hb hlt
      by_cases hcont : (processRequest k p env).2 = true
      · simp only [dispatchAux, hcont, if_true] at hb ⊢
        by_cases hblen : b < (processRequest k p env).1.length
        · rw [List.getElem?_append_left hblen] at hb
          have hidx := processRequest_idx k p env a (List.getElem?_mem hb)
          omega
        · push_neg at hblen
          rw [List.getElem?_append_right hblen] at hb
          by_cases hik : i = k
          · subst hik
            obtain ⟨pre, hpre⟩ := processRequest_resolve i p env hcont
            refine ⟨pre.length, ?_, ?_⟩
            · have : (processRequest i p env).1.length = pre.length + 1 := by
                rw [hpre]; simp
              omega
            · have hlt' : pre.length < (processRequest i p env).1.length := by
                rw [hpre]; simp
              rw [List.getElem?_append_left hlt', hpre,
                List.getElem?_append_right (Nat.le_refl pre.length)]
              simp
          · have hki' : k + 1 ≤ i := by omega
            obtain ⟨c, hc, hgc⟩ := ih (k + 1) (b - (processRequest k p env).1.length) i a hki' hb hlt
            refine ⟨(processRequest k p env).1.length + c, by omega, ?_⟩
            rw [List.getElem?_append_right (by omega : (processRequest k p env).1.length ≤
              (processRequest k p env).1.length + c)]
            simpa using hgc
      · simp only [dispatchAux, hcont, if_false] at hb
        have hidx := processRequest_idx k p env a (List.getElem?_mem hb)
        omega

/-- Claim C6: the dispatch loop serializes punch attempts — before any
action of request `j` appears in the loop's trace, every earlier request
`i < j` has already fully resolved (its `resolve` action occurs at an
earlier position), so at most one punch attempt is ever mid-flight. -/
theorem dispatch_serializes (reqs : List (Nat × RequestEnv)) (b i : Nat) (a : Action)
    (hb : (dispatch reqs)[b]? = some a) (hlt : i < a.idx) :
    ∃ c, c < b ∧ (dispatch reqs)[c]? = some (Action.resolve i) :=
  dispatchAux_serial reqs 0 b i a (Nat.zero_le i) hb hlt

/-- Two well-formed requests processed by the loop, used as witness data. -/
def envOk : RequestEnv := ⟨⟨"10.0.0.5", 51000, "wireguard", false⟩, true, true, [ReadEvent.recv 10 1]⟩

/-- Witness request list for `dispatch_serializes`. -/
def reqsW : List (Nat × RequestEnv) := [(5, envOk), (6, envOk)]

/-- Witness for `dispatch_serializes`: in a two-request run, before the
socket of request 1 is opened (position 3), request 0 already resolved. -/
theorem dispatch_serializes_witness :
    ∃ c, c < 3 ∧ (dispatch reqsW)[c]? = some (Action.resolve 0) :=
  dispatch_serializes reqsW 3 0 (Action.openSocket 1 6 "10.0.0.5" 51000) (by decide) (by decide)

/-- Claim C7: when the NAT Event Waiter reports a success event, `Start`
returns immediately: whatever requests would later arrive, the dispatch
loop is never entered and no action is ever performed. -/
theorem start_success_skips_loop (reqs : List (Nat × RequestEnv)) :
    start ⟨EventType.successType⟩ reqs = [] := rfl

/-- Claim C4: a config decode failure does not abort the processing of the
request — it only adds a log action, after which the very same iteration
continues with the (possibly zero) parsed values. -/
theorem parse_error_falls_through (i p pt : Nat) (ip st : String) (av dk : Bool)
    (rds : List ReadEvent) :
    processRequest i p ⟨⟨ip, pt, st, true⟩, av, dk, rds⟩ =
      (Action.parseFailLogged i :: (processRequest i p ⟨⟨ip, pt, st, false⟩, av, dk, rds⟩).1,
       (processRequest i p ⟨⟨ip, pt, st, false⟩, av, dk, rds⟩).2) := rfl

/-- Request whose punch attempt times out: proxy available, nonzero remote
port, dial succeeds, every read fails until the 10 s deadline. -/
def envT : RequestEnv := ⟨⟨"10.0.0.5", 51000, "wireguard", false⟩, true, true, [ReadEvent.err 9800]⟩

/-- Claim C3 fails on the code: on the timeout path of a valid request
(proxy available, nonzero remote port) exactly one socket is opened but it
is neither handed off nor closed — the socket is abandoned. -/
theorem socket_abandoned_on_timeout :
    (processRequest 0 9090 envT).1.countP Action.isOpen = 1 ∧
    (processRequest 0 9090 envT).1.countP Action.isHandOff = 0 ∧
    (processRequest 0 9090 envT).1.countP Action.isClose = 0 := by decide

/-- A well-formed request answered with a datagram, witness data for the
port-supplier claim. -/
def envA : RequestEnv := ⟨⟨"1.2.3.4", 9, "openvpn", false⟩, true, true, [ReadEvent.recv 100 3]⟩

/-- Claim C8 (amended): the punch socket's local port is the
caller-supplied `Params.Port` of the request; the port supplier held in
the `portPool` field is never consulted — no `Acquire` call ever occurs. -/
theorem local_port_from_request (i p : Nat) (env : RequestEnv) :
    (processRequest i p env).1.countP Action.isAcquire = 0 ∧
    (∀ a ∈ (processRequest i p env).1, a.isOpen = true →
      a = Action.openSocket i p env.parsed.ip env.parsed.port) := by
  constructor
  · unfold processRequest processBody
    cases henv : env.parsed.errored <;> cases hav : env.proxyAvailable <;>
      by_cases hp : env.parsed.port = 0 <;> cases hd : env.dialOk <;>
        cases ho : (pingReceiver env.reads).outcome <;>
          simp [henv, hav, hp, hd, ho, getConnection, Action.isAcquire,
            List.countP_cons, List.countP_nil, List.countP_append]
  · intro a ha hopen
    unfold processRequest at ha
    rw [List.mem_append] at ha
    rcases ha with ha | ha
    · cases henv : env.parsed.errored <;> rw [henv] at ha
      · simp at ha
      · simp at ha
        subst ha
        simp [Action.isOpen] at hopen
    · unfold processBody at ha
      cases hav : env.proxyAvailable
      · simp [hav] at ha
        rcases ha with rfl | rfl <;> simp [Action.isOpen] at hopen
      · by_cases hp : env.parsed.port = 0
        · simp [hav, hp] at ha
          rcases ha with rfl | rfl <;> simp [Action.isOpen] at hopen
        · cases hd : env.dialOk
          · simp [hav, hp, hd, getConnection] at ha
            subst ha
            simp [Action.isOpen] at hopen
          · cases ho : (pingReceiver env.reads).outcome
            · simp [hav, hp, hd, ho, getConnection] at ha
              rcases ha with rfl | rfl
              · rfl
              · simp [Action.isOpen] at hopen
            · simp [hav, hp, hd, ho, getConnection] at ha
              rcases ha with rfl | rfl | rfl
              · rfl
              · simp [Action.isOpen] at hopen
              · simp [Action.isOpen] at hopen
            · simp [hav, hp, hd, ho, getConnection] at ha
              subst ha
              rfl

/-- Witness for `local_port_from_request`: the socket of the witness run
is opened with local port 7, the request's own `Port` field. -/
theorem local_port_from_request_witness :
    (processRequest 0 7 envA).1.countP Action.isAcquire = 0 ∧
    Action.openSocket 0 7 "1.2.3.4" 9 = Action.openSocket 0 7 envA.parsed.ip envA.parsed.port :=
  ⟨(local_port_from_request 0 7 envA).1,
   (local_port_from_request 0 7 envA).2 (Action.openSocket 0 7 "1.2.3.4" 9)
     (by decide) (by decide)⟩

/-- Counterexample to claim C8 as stated: a run that opens a socket
performs no `Acquire` call on the port supplier at all, so the local port
cannot have been obtained through the Port Supplier's acquire operation. -/
theorem port_supplier_unused_cx :
    ¬ (∀ (i p : Nat) (env : RequestEnv),
        0 < (processRequest i p env).1.countP Action.isOpen →
        0 < (processRequest i p env).1.countP Action.isAcquire) := by
  intro h
  exact absurd (h 0 7 envA (by decide)) (by decide)

/-- Pinger state relevant to the consumer-side entry: `NewPingerFactory`
does not set `consumerPort`, which therefore holds the integer zero
value. -/
structure Pinger where
  consumerPort : Nat
  deriving DecidableEq

/-- Model of `NewPingerFactory`: it leaves `consumerPort` at 0. -/
def newPingerFactory : Pinger := ⟨0⟩

/-- Model of `BindConsumerPort`: stores the consumer-side local source port. -/
def bindConsumerPort (_p : Pinger) (port : Nat) : Pinger := ⟨port⟩

/-- Observable result of one `PingProvider` call: the dialed connection,
the receive race's outcome (none when dialing failed), whether the
deferred close ran, and whether an error is returned. -/
structure ProviderRun where
  conn : Option Conn
  receiverOutcome : Option RecvOutcome
  closed : Bool
  errored : Bool
  deriving DecidableEq

/-- Model of `PingProvider`: dials from local port `p.consumerPort`, starts the
sender, sleeps one interval, runs the receive race, and closes the socket
through the deferred close when it returns; a receiver timeout is
propagated to the caller as an error. -/
def pingProvider (p : Pinger) (ip : String) (port : Nat) (dialOk : Bool)
    (reads : List ReadEvent) : ProviderRun :=
  match getConnection ip port p.consumerPort dialOk with
  | none => ⟨none, none, false, true⟩
  | some c =>
      match (pingReceiver reads).outcome with
      | RecvOutcome.timedOut => ⟨some c, some RecvOutcome.timedOut, true, true⟩
      | RecvOutcome.success => ⟨some c, some RecvOutcome.success, true, false⟩
      | RecvOutcome.blocked => ⟨some c, some RecvOutcome.blocked, false, false⟩

/-- Claim C9: if `bindConsumerPort` was never called, `pingProvider` still
proceeds: the socket is opened with local port 0 — the zero value of
`consumerPort`, i.e. an OS-assigned ephemeral port — and the punch attempt
runs; the "must be called before PingProvider" precondition is not
enforced. -/
theorem pingProvider_unbound_port (ip : String) (port : Nat) (reads : List ReadEvent) :
    (pingProvider newPingerFactory ip port true reads).conn = some ⟨0, ip, port⟩ ∧
    (pingProvider newPingerFactory ip port true reads).receiverOutcome =
      some (pingReceiver reads).outcome := by
  cases ho : (pingReceiver reads).outcome <;>
    simp [pingProvider, getConnection, newPingerFactory, ho]

end Traversal
